import Mathlib

/-!
Shallow embedding of the movingpandas overlay module (`overlay.py`) and the
trajectory stop detector (`trajectory_stop_detector.py`).

Timestamps are modelled as integer microsecond counts (Python `datetime`
values have microsecond resolution), so 10 milliseconds is 10000
microseconds.  Planar coordinates are exact rationals.  External
geometry-engine and trajectory-store capabilities (shapely, geopandas,
the `Trajectory` class) are passed in explicitly as function-valued
parameters, mirroring the external-interface contract of the system.
-/

namespace MovingPandas

/-- Timestamps in microseconds since an arbitrary epoch. -/
abbrev Time := Int

/-- A planar point (shapely `Point`); shapely `==` on points is exact
coordinate equality. -/
structure Pt where
  x : ℚ
  y : ℚ
deriving DecidableEq, Repr

/-- `shapely.affinity.translate` restricted to a point geometry. -/
def translate (p : Pt) (xoff yoff : ℚ) : Pt :=
  ⟨p.x + xoff, p.y + yoff⟩

/-- `is_equal(t1, t2)` from `overlay.py`.  Both branches of the Python
function (the `pd.Timestamp` branch merely converts the representation)
compute `abs(t1 - t2)` and compare it with `timedelta(milliseconds=10)`,
i.e. 10000 microseconds. -/
def is_equal (t1 t2 : Time) : Bool :=
  decide ((t1 - t2).natAbs < 10000)

/-- `TemporalRange` from `time_range_utils`. -/
structure TemporalRange where
  t_0 : Time
  t_n : Time
deriving DecidableEq, Repr

/-- `TemporalRangeWithTrajId` from `time_range_utils`. -/
structure TemporalRangeWithTrajId where
  t_0 : Time
  t_n : Time
  traj_id : String
deriving DecidableEq, Repr

/-- `SpatioTemporalRange` from `time_range_utils`. -/
structure SpatioTemporalRange where
  pt_0 : Pt
  pt_n : Pt
  t_0 : Time
  t_n : Time
deriving DecidableEq, Repr

/-- The body of the `for r in ranges` loop of `_dissolve_ranges`, as a fold
step over the state `(dissolved_ranges, new_range)`. -/
def dissolveStep (st : List SpatioTemporalRange × Option SpatioTemporalRange)
    (r? : Option SpatioTemporalRange) :
    List SpatioTemporalRange × Option SpatioTemporalRange :=
  match r? with
  | none => st
  | some r =>
    match st.2 with
    | none => (st.1, some ⟨r.pt_0, r.pt_n, r.t_0, r.t_n⟩)
    | some new_range =>
      if new_range.t_n = r.t_0 ∨ (new_range.t_n < r.t_0 ∧ is_equal r.t_0 new_range.t_n = true) then
        (st.1, some { new_range with t_n := r.t_n, pt_n := r.pt_n })
      else
        (st.1 ++ [new_range], some ⟨r.pt_0, r.pt_n, r.t_0, r.t_n⟩)

/-- `_dissolve_ranges(ranges)` from `overlay.py`.  The trailing
`dissolved_ranges.append(new_range)` appends the final open range, which is
still `None` when every input entry was `None`; hence the result list holds
optional ranges and the raise is modelled as `Except.error`. -/
def dissolve_ranges (ranges : List (Option SpatioTemporalRange)) :
    Except String (List (Option SpatioTemporalRange)) :=
  if ranges.length = 0 then
    .error "Nothing to dissolve (received empty ranges)!"
  else
    let st := ranges.foldl dissolveStep ([], none)
    .ok (st.1.map some ++ [st.2])

/-- One row of the candidate line dataframe consumed by
`_get_spatiotemporal_ref`: the spatial intersection of the row's line with
the polygon (the first and last coordinate of the intersection `LineString`,
or `None` when the intersection is not a `LineString`), the row's time
interval, and the external geometry engine's `project`/`length` answers for
the row's full line. -/
structure LineRow where
  spatial_intersection : Option (Pt × Pt)
  prev_t : Time
  t : Time
  line_project : Pt → ℚ
  line_length : ℚ

/-- Rounding of a rational microsecond count to a whole microsecond: the
product `t_delta * (d / length)` of a `timedelta` with a float is rounded
to whole microseconds by Python, and the subsequent `datetime(...)`
reconstruction keeps whole-microsecond precision.  (CPython rounds ties to
even; `round` rounds ties up.  The difference arises only at exact
half-microsecond products and is irrelevant to the claims proved here.) -/
def toMicro (q : ℚ) : Time := round q

/-- `_get_spatiotemporal_ref(row)` from `overlay.py`. -/
def get_spatiotemporal_ref (row : LineRow) : Option SpatioTemporalRange :=
  match row.spatial_intersection with
  | none => none
  | some (c0, cn) =>
    let pt0 := c0
    let ptn := cn
    let t := row.prev_t
    let t_delta : ℚ := ((row.t - t : Int) : ℚ)
    let length := row.line_length
    let t0 := t + toMicro (t_delta * row.line_project pt0 / length)
    let tn := t + toMicro (t_delta * row.line_project ptn / length)
    -- "to avoid intersection issues with zero length lines"
    let p := if ptn = translate pt0 (1 / 100000000) (1 / 100000000) then
        (row.prev_t, row.t)
      else
        (t0, tn)
    let t0 := p.1
    let tn := p.2
    -- "to avoid numerical issues with timestamps"
    let tn := if is_equal tn row.t then row.t else tn
    let t0 := if is_equal t0 row.prev_t then row.prev_t else t0
    some ⟨pt0, ptn, t0, tn⟩

/-- A pandas cell value. -/
inductive PVal where
  | i : Int → PVal
  | b : Bool → PVal
  | s : String → PVal
  | pt : Pt → PVal
deriving DecidableEq, Repr

/-- A column-major dataframe: a time index plus named columns aligned with
the index. -/
structure DF where
  index : List Time
  columns : List (String × List PVal)
deriving DecidableEq, Repr

/-- Column access `df[k]`. -/
def dfGetCol (df : DF) (k : String) : Option (List PVal) :=
  df.columns.lookup k

/-- Column assignment `df[k] = vs`: overwrite the column when present,
append it otherwise. -/
def dfSetCol (df : DF) (k : String) (vs : List PVal) : DF :=
  if (df.columns.map Prod.fst).contains k then
    { df with columns := df.columns.map fun c => if c.1 = k then (k, vs) else c }
  else
    { df with columns := df.columns ++ [(k, vs)] }

/-- Scalar column assignment `df[k] = v`: pandas broadcasts the scalar over
the whole index. -/
def dfSetColScalar (df : DF) (k : String) (v : PVal) : DF :=
  dfSetCol df k (List.replicate df.index.length v)

/-- The `Trajectory` data visible to the overlay module: the sample
dataframe, the identifier, the geographic-coordinates flag, and the weak
parent reference (stored as the parent's identifier). -/
structure Traj where
  df : DF
  id : String
  is_latlon : Bool
  parent_id : Option String := none
deriving DecidableEq, Repr

/-- `df.intersects(polygon)`: the polygon test applied to each row's
`geometry` cell (the containment test itself is external). -/
def dfIntersects (inPoly : Pt → Bool) (df : DF) : List Bool :=
  ((dfGetCol df "geometry").getD []).map fun v =>
    match v with
    | .pt p => inPoly p
    | _ => false

/-- Helper for `segmentIds`, carrying the previously seen flag and the
running cumulative sum. -/
def segmentIdsAux : Option Bool → Int → List Bool → List Int
  | _, _, [] => []
  | prev, acc, f :: fs =>
    let acc := if prev = some f then acc else acc + 1
    acc :: segmentIdsAux (some f) acc fs

/-- `(df['intersects'].shift(1) != df['intersects']).astype(int).cumsum()`:
the first row compares against the shifted-in NaN, hence unequal, so group
numbering starts at 1 and increments whenever the flag changes. -/
def segmentIds (flags : List Bool) : List Int :=
  segmentIdsAux none 0 flags

/-- Splits the rows `(t, intersects, segment)` into the maximal runs of
equal segment id, in order (the groups of `df.groupby('segment')`, since
the cumulative-sum segment ids are monotone). -/
def groupRuns : List (Time × Bool × Int) → List (List (Time × Bool × Int))
  | [] => []
  | x :: rest =>
    match groupRuns rest with
    | [] => [[x]]
    | [] :: gs => [x] :: [] :: gs
    | (y :: ys) :: gs =>
      if x.2.2 = y.2.2 then (x :: y :: ys) :: gs else [x] :: (y :: ys) :: gs

/-- Aggregates one group to `(t_min, t_max, intersects_min)`; the boolean
minimum of pandas is conjunction. -/
def aggGroup : List (Time × Bool × Int) → Time × Time × Bool
  | [] => (0, 0, true)
  | (t, f, _) :: rest =>
    (rest.foldl (fun a r => min a r.1) t,
     rest.foldl (fun a r => max a r.1) t,
     rest.foldl (fun a r => a && r.2.1) f)

/-- `df.groupby('segment', as_index=False).agg({'t': ['min', 'max'],
'intersects': ['min']})` on rows `(t, intersects, segment)`, one aggregated
row per group, in group order. -/
def groupAgg (rows : List (Time × Bool × Int)) : List (Time × Time × Bool) :=
  (groupRuns rows).map aggGroup

/-- `_determine_time_ranges_pointbased(traj, polygon)` from `overlay.py`.
The Python function begins with `df = traj.df` — an alias, not a copy — and
assigns the helper columns `t`, `intersects` and `segment` through that
alias, thereby mutating the input trajectory's dataframe before rebinding
`df` to the grouped aggregate.  The mutation is made explicit here by
returning the updated trajectory alongside the ranges. -/
def determine_time_ranges_pointbased (inPoly : Pt → Bool) (traj : Traj) :
    List TemporalRange × Traj :=
  let df := traj.df
  let flags := dfIntersects inPoly df
  let ids := segmentIds flags
  let df := dfSetCol df "t" (df.index.map PVal.i)
  let df := dfSetCol df "intersects" (flags.map PVal.b)
  let df := dfSetCol df "segment" (ids.map PVal.i)
  let grouped := groupAgg (traj.df.index.zip (flags.zip ids))
  (grouped.filterMap fun g => if g.2.2 then some ⟨g.1, g.2.1⟩ else none,
   { traj with df := df })

/-- `df.index.get_loc(t, method='pad')`: the position of the last index
entry at or before `t`; the pandas `KeyError` raised when every entry is
later is modelled as `none`. -/
def get_loc_pad (index : List Time) (t : Time) : Option Nat :=
  ((List.range index.length).filter fun i => index.getD i 0 ≤ t).getLast?

/-- `df.iloc[pos]`: one value per column. -/
def dfRowAt (df : DF) (pos : Nat) : List PVal :=
  df.columns.map fun c => c.2.getD pos (PVal.i 0)

/-- `row['geometry'] = p` on an extracted row (values aligned with
`df.columns`). -/
def rowSetGeometry (df : DF) (row : List PVal) (p : Pt) : List PVal :=
  ((df.columns.map Prod.fst).zip row).map fun kv =>
    if kv.1 = "geometry" then PVal.pt p else kv.2

/-- `df.loc[t] = row`: label-based row assignment — overwrite the rows
carrying label `t` when the label exists, append a new row otherwise. -/
def dfSetRow (df : DF) (t : Time) (row : List PVal) : DF :=
  if df.index.contains t then
    ⟨df.index,
     (df.columns.zip row).map fun cr =>
       (cr.1.1, (List.range cr.1.2.length).map fun i =>
          if df.index.getD i 0 = t then cr.2 else cr.1.2.getD i (PVal.i 0))⟩
  else
    ⟨df.index ++ [t], (df.columns.zip row).map fun cr => (cr.1.1, cr.1.2 ++ [cr.2])⟩

/-- `df.sort_index()`: reorder the rows by ascending index value. -/
def dfSortIndex (df : DF) : DF :=
  let order := (List.range df.index.length).mergeSort
      fun i j => df.index.getD i 0 ≤ df.index.getD j 0
  ⟨order.map fun i => df.index.getD i 0,
   df.columns.map fun c => (c.1, order.map fun i => c.2.getD i (PVal.i 0))⟩

/-- `create_entry_and_exit_points(traj, range)` from `overlay.py`.  The
Python `TypeError` for a non-`SpatioTemporalRange` argument is enforced by
the argument type; the `KeyError` that `get_loc(..., method='pad')` raises
when a boundary timestamp precedes the whole index is modelled as an
error.  The function works on `traj.df.copy()` and never writes back to
`traj`. -/
def create_entry_and_exit_points (traj : Traj) (range : SpatioTemporalRange) :
    Except String DF :=
  match get_loc_pad traj.df.index range.t_0, get_loc_pad traj.df.index range.t_n with
  | some pos0, some posn =>
    let row0 := rowSetGeometry traj.df (dfRowAt traj.df pos0) range.pt_0
    let rown := rowSetGeometry traj.df (dfRowAt traj.df posn) range.pt_n
    let temp_df := traj.df
    let temp_df := dfSetRow temp_df range.t_0 row0
    let temp_df := dfSetRow temp_df range.t_n rown
    .ok (dfSortIndex temp_df)
  | _, _ => .error "KeyError"

/-- The heterogeneous contents of the `ranges` list consumed by
`_get_segments_for_ranges`: line-based mode supplies optional
`SpatioTemporalRange`s (`None` entries included), point-based mode supplies
`TemporalRange`s. -/
inductive RangeVal where
  | st : SpatioTemporalRange → RangeVal
  | tr : TemporalRange → RangeVal
  | absent : RangeVal
deriving DecidableEq, Repr

/-- External capabilities consumed by the overlay engine (spec section 6):
the shapely geometry engine and the trajectory store.  `Poly` and `Line`
are opaque geometry types.  `line_df_rows` bundles
`_get_potentially_intersecting_lines` together with the per-row shapely
intersections `possible_matches.intersection(polygon)` (both external);
`get_segment_between` returns `none` exactly when the Python method raises
`ValueError`. -/
structure Engine (Poly Line : Type) where
  to_linestring : Traj → Option Line
  line_intersects : Line → Poly → Bool
  pt_intersects : Pt → Poly → Bool
  line_df_rows : Traj → Poly → List LineRow
  get_segment_between : Traj → Time → Time → Option Traj

variable {Poly Line : Type}

/-- `intersects(traj, polygon)` from `overlay.py`: a failing
`to_linestring` is swallowed and reported as no intersection. -/
def intersects (E : Engine Poly Line) (traj : Traj) (polygon : Poly) : Bool :=
  match E.to_linestring traj with
  | none => false
  | some line => E.line_intersects line polygon

/-- `_determine_time_ranges_linebased(traj, polygon)` from `overlay.py`. -/
def determine_time_ranges_linebased (E : Engine Poly Line) (traj : Traj) (polygon : Poly) :
    Except String (List (Option SpatioTemporalRange)) :=
  dissolve_ranges ((E.line_df_rows traj polygon).map get_spatiotemporal_ref)

/-- The `for the_range in ranges` loop of `_get_segments_for_ranges`, with
the counter made explicit.  A `None` entry reaches `the_range.t_0` and
raises `AttributeError`; only the `ValueError` of `get_segment_between` is
caught (`continue`, without incrementing the counter). -/
def segmentsLoop (E : Engine Poly Line) (traj : Traj) :
    Nat → List RangeVal → Except String (List Traj)
  | _, [] => .ok []
  | _, .absent :: _ => .error "AttributeError: NoneType object has no attribute t_0"
  | counter, .st the_range :: rest => do
    let df ← create_entry_and_exit_points traj the_range
    match E.get_segment_between { traj with df := df } the_range.t_0 the_range.t_n with
    | none => segmentsLoop E traj counter rest
    | some segment => do
      let more ← segmentsLoop E traj (counter + 1) rest
      let seg := { segment with id := traj.id ++ "_" ++ toString counter, parent_id := some traj.id }
      .ok (seg :: more)
  | counter, .tr the_range :: rest =>
    match E.get_segment_between traj the_range.t_0 the_range.t_n with
    | none => segmentsLoop E traj counter rest
    | some segment => do
      let more ← segmentsLoop E traj (counter + 1) rest
      let seg := { segment with id := traj.id ++ "_" ++ toString counter, parent_id := some traj.id }
      .ok (seg :: more)

/-- `_get_segments_for_ranges(traj, ranges)` from `overlay.py`. -/
def get_segments_for_ranges (E : Engine Poly Line) (traj : Traj)
    (ranges : List RangeVal) : Except String (List Traj) :=
  segmentsLoop E traj 0 ranges

/-- `clip(traj, polygon, pointbased)` from `overlay.py`.  In point-based
mode the Python code mutates `traj.df` (see
`determine_time_ranges_pointbased`); the trajectory returned alongside the
result makes that frame effect explicit, and the mutated trajectory is the
one segment extraction subsequently reads. -/
def clip (E : Engine Poly Line) (traj : Traj) (polygon : Poly) (pointbased : Bool) :
    Except String (List Traj) × Traj :=
  if intersects E traj polygon = false then (.ok [], traj)
  else if pointbased then
    let pr := determine_time_ranges_pointbased (fun p => E.pt_intersects p polygon) traj
    (get_segments_for_ranges E pr.2 (pr.1.map RangeVal.tr), pr.2)
  else
    match determine_time_ranges_linebased E traj polygon with
    | .error e => (.error e, traj)
    | .ok ranges =>
      (get_segments_for_ranges E traj (ranges.map fun r? =>
        match r? with
        | some r => RangeVal.st r
        | none => RangeVal.absent), traj)

/-- A well-formed GeoJSON-like feature `(geometry, properties)`; the
`TypeError` path of `_get_geometry_and_properties_from_feature` for
malformed feature input is enforced by this type. -/
structure Feature (Poly : Type) where
  geometry : Poly
  properties : List (String × PVal)

/-- The `for key, value in properties.items()` loop of `intersection`:
`clipping.df['intersecting_' + key] = value` for every feature property. -/
def stampProperties (properties : List (String × PVal)) (df : DF) : DF :=
  properties.foldl (fun d kv => dfSetColScalar d ("intersecting_" ++ kv.1) kv.2) df

/-- `intersection(traj, feature, pointbased)` from `overlay.py`: clip
against the feature's geometry, then stamp every feature property onto each
clipped segment (a scalar column assignment per property). -/
def intersection (E : Engine Poly Line) (traj : Traj) (feature : Feature Poly)
    (pointbased : Bool) : Except String (List Traj) × Traj :=
  let c := clip E traj feature.geometry pointbased
  match c.1 with
  | .error e => (.error e, c.2)
  | .ok clipped =>
    (.ok (clipped.map fun clipping => { clipping with df := stampProperties feature.properties clipping.df }), c.2)

/-- Configuration of one `TrajectoryStopDetector._process_traj` call: the
external `mrr_diagonal` compactness metric from `geometry_utils` (taking
the geometry list and the `is_latlon` flag), the trajectory's flag and
identifier, and the two detection parameters. -/
structure StopCfg (G : Type) where
  mrr_diagonal : List G → Bool → ℚ
  is_latlon : Bool
  max_diameter : ℚ
  min_duration : Time
  traj_id : String

variable {G : Type}

/-- The loop state of `_process_traj`. -/
structure StopState (G : Type) where
  detected : List TemporalRangeWithTrajId
  segment_geoms : List G
  segment_times : List Time
  is_stopped : Bool
  previously_stopped : Bool
deriving DecidableEq, Repr

/-- The `while len(segment_geoms) > 2 and segment_times[-1] -
segment_times[0] >= min_duration: pop(0)` front-trimming loop of
`_process_traj`. -/
def trimWindow (min_duration : Time) (geoms : List G) (times : List Time) :
    List G × List Time :=
  if h : 2 < geoms.length ∧ min_duration ≤ times.getLastD 0 - times.headD 0 then
    trimWindow min_duration geoms.tail times.tail
  else
    (geoms, times)
termination_by geoms.length
decreasing_by
  rw [List.length_tail]
  omega

/-- Lines 63–70 of `trajectory_stop_detector.py`: append the sample to the
window, then (when not currently stopped) front-trim the window. -/
def stopWindow (cfg : StopCfg G) (st : StopState G) (row : Time × G) :
    List G × List Time :=
  let segment_geoms := st.segment_geoms ++ [row.2]
  let segment_times := st.segment_times ++ [row.1]
  if st.is_stopped then (segment_geoms, segment_times)
  else trimWindow cfg.min_duration segment_geoms segment_times

/-- One iteration of the `for index, row in traj.df.iterrows()` loop of
`_process_traj`: window maintenance, the compactness test, and the
stopped-to-moving transition handling. -/
def stopStep (cfg : StopCfg G) (st : StopState G) (row : Time × G) : StopState G :=
  let w := stopWindow cfg st row
  let segment_geoms := w.1
  let segment_times := w.2
  let is_stopped : Bool :=
    decide (1 < segment_geoms.length) &&
      decide (cfg.mrr_diagonal segment_geoms cfg.is_latlon < cfg.max_diameter)
  if 1 < segment_geoms.length then
    let segment_end := segment_times.dropLast.getLastD 0
    let segment_begin := segment_times.headD 0
    if is_stopped = false ∧ st.previously_stopped = true then
      if cfg.min_duration ≤ segment_end - segment_begin then
        ⟨st.detected ++ [⟨segment_begin, segment_end, cfg.traj_id⟩], [], [], is_stopped, is_stopped⟩
      else
        ⟨st.detected, segment_geoms, segment_times, is_stopped, is_stopped⟩
    else
      ⟨st.detected, segment_geoms, segment_times, is_stopped, is_stopped⟩
  else
    ⟨st.detected, segment_geoms, segment_times, is_stopped, is_stopped⟩

/-- `TrajectoryStopDetector._process_traj(traj, max_diameter, min_duration)`
over the trajectory's `(timestamp, geometry)` rows: the per-sample scan
followed by the still-stopped-at-end final emission. -/
def process_traj (cfg : StopCfg G) (rows : List (Time × G)) :
    List TemporalRangeWithTrajId :=
  let st := rows.foldl (stopStep cfg) ⟨[], [], [], false, false⟩
  if st.is_stopped = true ∧
      cfg.min_duration ≤ st.segment_times.getLastD 0 - st.segment_times.headD 0 then
    st.detected ++ [⟨st.segment_times.headD 0, st.segment_times.getLastD 0, cfg.traj_id⟩]
  else
    st.detected

/-- Range-dissolution step as worded by the specification (section 4.4 /
claim C1): if no range is open, open a copy of `r`; else if the open
range's end time equals `r`'s start time exactly, or `r`'s start time is
strictly later than the open range's end time and within 10 milliseconds
of it, replace the open range's end time and end point by `r`'s; otherwise
emit the open range and open a copy of `r`.  Absent entries are skipped. -/
def dissolveStepSpec (st : List SpatioTemporalRange × Option SpatioTemporalRange)
    (r? : Option SpatioTemporalRange) :
    List SpatioTemporalRange × Option SpatioTemporalRange :=
  match r? with
  | none => st
  | some r =>
    match st.2 with
    | none => (st.1, some ⟨r.pt_0, r.pt_n, r.t_0, r.t_n⟩)
    | some nr =>
      if nr.t_n = r.t_0 ∨ (nr.t_n < r.t_0 ∧ (r.t_0 - nr.t_n).natAbs < 10 * 1000) then
        (st.1, some ⟨nr.pt_0, r.pt_n, nr.t_0, r.t_n⟩)
      else
        (st.1 ++ [nr], some ⟨r.pt_0, r.pt_n, r.t_0, r.t_n⟩)

/-- Concrete two-sample trajectory used to evaluate the model on concrete
inputs. -/
def trajW : Traj :=
  ⟨⟨[0, 60000000], [("geometry", [PVal.pt ⟨0, 0⟩, PVal.pt ⟨1, 1⟩])]⟩, "traj1", false, none⟩

/-- A trivial engine over unit geometry types: everything intersects, the
candidate line dataframe is empty, and slicing returns the sliced
trajectory unchanged. -/
def unitEngine : Engine Unit Unit :=
  ⟨fun _ => some (), fun _ _ => true, fun _ _ => true, fun _ _ => [], fun t _ _ => some t⟩

/-- Concrete feature with two properties. -/
def featureW : Feature Unit := ⟨(), [("status", PVal.s "ok"), ("risk", PVal.i 2)]⟩

/-- Concrete candidate line row whose intersection endpoints coincide
exactly (planar distance zero). -/
def rowCoincident : LineRow := ⟨some (⟨0, 0⟩, ⟨0, 0⟩), 0, 10000000, fun _ => 5, 10⟩

/-- Concrete candidate line row whose intersection endpoints differ by the
sentinel zero-length-line offset `(1e-8, 1e-8)`. -/
def rowSentinel : LineRow :=
  ⟨some (⟨0, 0⟩, ⟨1 / 100000000, 1 / 100000000⟩), 0, 10000000, fun _ => 3, 7⟩

/-- Stop-detector configuration whose compactness metric always reports a
large diameter, so that every window counts as moving. -/
def cfgMoving : StopCfg Unit := ⟨fun _ _ => 5, false, 1, 60000000, "t1"⟩

/-- Stop-detector configuration whose compactness metric always reports
zero diameter, so that every window counts as stopped. -/
def cfgStationary : StopCfg Unit := ⟨fun _ _ => 0, false, 1, 120000000, "t1"⟩

/-! ## Theorems -/

/-- Claim C1: every dissolution step behaves exactly as the specification
words it (skip absent entries; open a copy when nothing is open; extend
the open range's end time and end point on exact or 10 ms tolerance
adjacency; otherwise emit and re-open), and the three adjacency examples
behave as stated: `(0s,10s)` and `(10s,20s)` dissolve to `(0s,20s)`, a
start of `10.005s` also merges to `(0s,20s)`, and a start of `10.5s` does
not merge. -/
theorem C1_dissolve_step_and_adjacency :
    (∀ st r?, dissolveStep st r? = dissolveStepSpec st r?) ∧
    dissolve_ranges [some ⟨⟨0, 0⟩, ⟨1, 1⟩, 0, 10000000⟩, some ⟨⟨1, 1⟩, ⟨2, 2⟩, 10000000, 20000000⟩]
      = .ok [some ⟨⟨0, 0⟩, ⟨2, 2⟩, 0, 20000000⟩] ∧
    dissolve_ranges [some ⟨⟨0, 0⟩, ⟨1, 1⟩, 0, 10000000⟩, some ⟨⟨1, 1⟩, ⟨2, 2⟩, 10005000, 20000000⟩]
      = .ok [some ⟨⟨0, 0⟩, ⟨2, 2⟩, 0, 20000000⟩] ∧
    dissolve_ranges [some ⟨⟨0, 0⟩, ⟨1, 1⟩, 0, 10000000⟩, some ⟨⟨1, 1⟩, ⟨2, 2⟩, 10500000, 20000000⟩]
      = .ok [some ⟨⟨0, 0⟩, ⟨1, 1⟩, 0, 10000000⟩, some ⟨⟨1, 1⟩, ⟨2, 2⟩, 10500000, 20000000⟩] := by
  refine ⟨?_, by rfl, by rfl, by rfl⟩
  intro st r?
  match r?, st with
  | none, st => rfl
  | some r, (ds, none) => rfl
  | some r, (ds, some nr) =>
    show (if nr.t_n = r.t_0 ∨ (nr.t_n < r.t_0 ∧ is_equal r.t_0 nr.t_n = true) then _ else _) = _
    apply if_congr
    · simp [is_equal]
    · rfl
    · rfl

/-- Claim C5: `is_equal(t1, t2)` returns true iff the absolute difference
of the two timestamps is strictly below 10 milliseconds. -/
theorem C5_is_equal_iff (t1 t2 : Time) :
    is_equal t1 t2 = true ↔ |t1 - t2| < 10 * 1000 := by
  have h : (|t1 - t2| < 10 * 1000) ↔ (t1 - t2).natAbs < 10000 := by
    rw [Int.abs_eq_natAbs]
    norm_cast
  rw [h]
  unfold is_equal
  simp only [decide_eq_true_eq]

/-- Claim C8: `_dissolve_ranges` on an empty range sequence raises a
`ValueError` and never returns a value. -/
theorem C8_dissolve_empty_raises :
    dissolve_ranges [] = .error "Nothing to dissolve (received empty ranges)!" := by
  rfl

/-- Folding the dissolution step over a list of absent entries leaves the
state unchanged. -/
theorem foldl_dissolveStep_none (l : List (Option SpatioTemporalRange))
    (st : List SpatioTemporalRange × Option SpatioTemporalRange)
    (hall : ∀ r ∈ l, r = none) : l.foldl dissolveStep st = st := by
  induction l generalizing st with
  | nil => rfl
  | cons a l ih =>
    have ha : a = none := hall a (by simp)
    subst ha
    rw [List.foldl_cons]
    exact ih st fun r hr => hall r (by simp [hr])

/-- Claim C10: a non-empty input whose entries are all absent dissolves to
the one-element list `[None]` — neither the empty list nor an actual
range. -/
theorem C10_all_absent_dissolve (ranges : List (Option SpatioTemporalRange))
    (hne : ranges ≠ []) (hall : ∀ r ∈ ranges, r = none) :
    dissolve_ranges ranges = .ok [none] := by
  unfold dissolve_ranges
  rw [if_neg fun h => hne (List.length_eq_zero.mp h),
    foldl_dissolveStep_none ranges ([], none) hall]
  rfl

/-- Witness for claim C10 at the concrete input `[None, None]`. -/
theorem C10_witness :
    (([none, none] : List (Option SpatioTemporalRange)) ≠ [] ∧
      ∀ r ∈ ([none, none] : List (Option SpatioTemporalRange)), r = none) ∧
    dissolve_ranges [none, none] = .ok [none] :=
  ⟨⟨by decide, by decide⟩, C10_all_absent_dissolve _ (by decide) (by decide)⟩

/-- The output list of `_dissolve_ranges`, with the `some` wrappers of the
closed ranges stripped: the closed ranges followed by the final open
range. -/
theorem filterMap_id_output (ds : List SpatioTemporalRange)
    (cur : Option SpatioTemporalRange) :
    (ds.map some ++ [cur]).filterMap id = ds ++ cur.toList := by
  cases cur <;> simp

/-- Fold invariant of `_dissolve_ranges`: when the pending input ranges are
in trajectory time order, are well-formed, and start no earlier than the
open range ends, the accumulated output (closed ranges followed by the open
range) stays strictly ordered and well-formed. -/
theorem dissolve_fold_invariant (l : List (Option SpatioTemporalRange))
    (ds : List SpatioTemporalRange) (cur : Option SpatioTemporalRange)
    (hord : (l.filterMap id).Pairwise fun a b => a.t_n ≤ b.t_0)
    (hwf : ∀ r ∈ l.filterMap id, r.t_0 ≤ r.t_n)
    (hacc : (ds ++ cur.toList).Pairwise fun a b => a.t_n < b.t_0)
    (haccwf : ∀ r ∈ ds ++ cur.toList, r.t_0 ≤ r.t_n)
    (hnil : cur = none → ds = [])
    (hrem : ∀ nr ∈ cur.toList, ∀ q ∈ l.filterMap id, nr.t_n ≤ q.t_0) :
    (((l.foldl dissolveStep (ds, cur)).1 ++
        (l.foldl dissolveStep (ds, cur)).2.toList).Pairwise fun a b => a.t_n < b.t_0) ∧
    ∀ r ∈ (l.foldl dissolveStep (ds, cur)).1 ++ (l.foldl dissolveStep (ds, cur)).2.toList,
      r.t_0 ≤ r.t_n := by
  induction l generalizing ds cur with
  | nil => exact ⟨hacc, haccwf⟩
  | cons r? l ih =>
    rw [List.foldl_cons]
    match r? with
    | none =>
      exact ih ds cur (by simpa using hord) (by simpa using hwf) hacc haccwf hnil
        (by simpa using hrem)
    | some r =>
      have hfm : (((some r) :: l).filterMap id) = r :: l.filterMap id := by simp
      rw [hfm] at hord hwf hrem
      have hr_rest : ∀ b ∈ l.filterMap id, r.t_n ≤ b.t_0 :=
        (List.pairwise_cons.mp hord).1
      have hord' := (List.pairwise_cons.mp hord).2
      have hwf_r : r.t_0 ≤ r.t_n := hwf r (by simp)
      have hwf' : ∀ q ∈ l.filterMap id, q.t_0 ≤ q.t_n := fun q hq => hwf q (by simp [hq])
      match cur with
      | none =>
        have hds : ds = [] := hnil rfl
        subst hds
        have hstep : dissolveStep ([], none) (some r) = ([], some r) := rfl
        rw [hstep]
        refine ih [] (some r) hord' hwf' (by simp) ?_ (by intro h; cases h) ?_
        · intro q hq
          simp only [Option.toList_some, List.nil_append, List.mem_singleton] at hq
          subst hq
          exact hwf_r
        · intro nr hnr q hq
          simp only [Option.toList_some, List.mem_singleton] at hnr
          subst hnr
          exact hr_rest q hq
      | some nr =>
        have hcur : nr.t_n ≤ r.t_0 := hrem nr (by simp) r (by simp)
        have hnrwf : nr.t_0 ≤ nr.t_n := haccwf nr (by simp)
        have hds_lt : ∀ p ∈ ds, p.t_n < nr.t_0 := by
          intro p hp
          have := (List.pairwise_append.mp hacc).2.2 p hp nr (by simp)
          exact this
        have hds_pw : ds.Pairwise fun a b => a.t_n < b.t_0 :=
          (List.pairwise_append.mp hacc).1
        have hdswf : ∀ p ∈ ds, p.t_0 ≤ p.t_n := fun p hp => haccwf p (by simp [hp])
        by_cases hcond : nr.t_n = r.t_0 ∨ (nr.t_n < r.t_0 ∧ is_equal r.t_0 nr.t_n = true)
        · have hstep : dissolveStep (ds, some nr) (some r) =
              (ds, some ⟨nr.pt_0, r.pt_n, nr.t_0, r.t_n⟩) := by
            show (if nr.t_n = r.t_0 ∨ (nr.t_n < r.t_0 ∧ is_equal r.t_0 nr.t_n = true)
                then _ else _) = _
            rw [if_pos hcond]
          rw [hstep]
          refine ih ds (some ⟨nr.pt_0, r.pt_n, nr.t_0, r.t_n⟩) hord' hwf' ?_ ?_
            (by intro h; cases h) ?_
          · rw [List.pairwise_append]
            exact ⟨hds_pw, by simp, by intro a ha b hb; simp at hb; subst hb; exact hds_lt a ha⟩
          · intro q hq
            rw [List.mem_append] at hq
            rcases hq with hq | hq
            · exact hdswf q hq
            · simp only [Option.toList_some, List.mem_singleton] at hq
              subst hq
              exact le_trans hnrwf (le_trans hcur hwf_r)
          · intro m hm q hq
            simp only [Option.toList_some, List.mem_singleton] at hm
            subst hm
            exact hr_rest q hq
        · have hstep : dissolveStep (ds, some nr) (some r) =
              (ds ++ [nr], some r) := by
            show (if nr.t_n = r.t_0 ∨ (nr.t_n < r.t_0 ∧ is_equal r.t_0 nr.t_n = true)
                then _ else _) = _
            rw [if_neg hcond]
          rw [hstep]
          have hne : nr.t_n ≠ r.t_0 := fun h => hcond (Or.inl h)
          have hlt : nr.t_n < r.t_0 := lt_of_le_of_ne hcur hne
          refine ih (ds ++ [nr]) (some r) hord' hwf' ?_ ?_ (by intro h; cases h) ?_
          · rw [List.pairwise_append]
            refine ⟨hacc, by simp, ?_⟩
            intro a ha b hb
            simp only [Option.toList_some, List.mem_singleton] at hb
            subst hb
            rw [List.mem_append] at ha
            rcases ha with ha | ha
            · exact lt_of_lt_of_le (hds_lt a ha) (le_trans hnrwf (le_of_lt hlt))
            · simp only [List.mem_singleton] at ha
              subst ha
              exact hlt
          · intro q hq
            rw [List.mem_append, List.mem_append] at hq
            rcases hq with (hq | hq) | hq
            · exact hdswf q hq
            · simp only [List.mem_singleton] at hq
              subst hq
              exact hnrwf
            · simp only [Option.toList_some, List.mem_singleton] at hq
              subst hq
              exact hwf_r
          · intro m hm q hq
            simp only [Option.toList_some, List.mem_singleton] at hm
            subst hm
            exact hr_rest q hq

/-- Claim C2: on inputs in trajectory time order (each well-formed, each
starting no earlier than its predecessor ends, absent entries skipped), the
dissolved ranges are strictly separated (hence pairwise non-overlapping),
each dissolved range is well-formed, and the dissolved ranges are sorted by
strictly increasing start time. -/
theorem C2_dissolve_invariants (ranges out : List (Option SpatioTemporalRange))
    (hord : (ranges.filterMap id).Pairwise fun a b => a.t_n ≤ b.t_0)
    (hwf : ∀ r ∈ ranges.filterMap id, r.t_0 ≤ r.t_n)
    (hout : dissolve_ranges ranges = .ok out) :
    ((out.filterMap id).Pairwise fun a b => a.t_n < b.t_0) ∧
    (∀ r ∈ out.filterMap id, r.t_0 ≤ r.t_n) ∧
    ((out.filterMap id).Pairwise fun a b => a.t_0 < b.t_0) := by
  unfold dissolve_ranges at hout
  split at hout
  · cases hout
  · simp only [Except.ok.injEq] at hout
    subst hout
    rw [filterMap_id_output]
    obtain ⟨h1, h2⟩ := dissolve_fold_invariant ranges [] none hord hwf (by simp) (by simp)
      (fun _ => rfl) (by simp)
    refine ⟨h1, h2, ?_⟩
    refine h1.imp_of_mem ?_
    intro a b ha hb hab
    exact lt_of_le_of_lt (h2 a ha) hab

/-- Witness for claim C2 at a concrete three-entry input (one absent
entry, one 500 ms gap). -/
theorem C2_witness :
    ((([some ⟨⟨0, 0⟩, ⟨1, 1⟩, 0, 10000000⟩, none,
        some ⟨⟨1, 1⟩, ⟨2, 2⟩, 10500000, 20000000⟩] :
          List (Option SpatioTemporalRange)).filterMap id).Pairwise
        fun a b => a.t_n ≤ b.t_0) ∧
    (dissolve_ranges [some ⟨⟨0, 0⟩, ⟨1, 1⟩, 0, 10000000⟩, none,
        some ⟨⟨1, 1⟩, ⟨2, 2⟩, 10500000, 20000000⟩] =
      .ok [some ⟨⟨0, 0⟩, ⟨1, 1⟩, 0, 10000000⟩,
        some ⟨⟨1, 1⟩, ⟨2, 2⟩, 10500000, 20000000⟩]) ∧
    ((([some ⟨⟨0, 0⟩, ⟨1, 1⟩, 0, 10000000⟩,
        some ⟨⟨1, 1⟩, ⟨2, 2⟩, 10500000, 20000000⟩] :
          List (Option SpatioTemporalRange)).filterMap id).Pairwise
        fun a b => a.t_n < b.t_0) ∧
    (∀ r ∈ ([some ⟨⟨0, 0⟩, ⟨1, 1⟩, 0, 10000000⟩,
        some ⟨⟨1, 1⟩, ⟨2, 2⟩, 10500000, 20000000⟩] :
          List (Option SpatioTemporalRange)).filterMap id, r.t_0 ≤ r.t_n) ∧
    ((([some ⟨⟨0, 0⟩, ⟨1, 1⟩, 0, 10000000⟩,
        some ⟨⟨1, 1⟩, ⟨2, 2⟩, 10500000, 20000000⟩] :
          List (Option SpatioTemporalRange)).filterMap id).Pairwise
        fun a b => a.t_0 < b.t_0) := by
  refine ⟨by decide, by rfl, ?_⟩
  exact C2_dissolve_invariants
    [some ⟨⟨0, 0⟩, ⟨1, 1⟩, 0, 10000000⟩, none, some ⟨⟨1, 1⟩, ⟨2, 2⟩, 10500000, 20000000⟩]
    [some ⟨⟨0, 0⟩, ⟨1, 1⟩, 0, 10000000⟩, some ⟨⟨1, 1⟩, ⟨2, 2⟩, 10500000, 20000000⟩]
    (by decide) (by decide) (by rfl)

/-- Claim C3 counterexample: on `rowCoincident` the intersection's two
endpoints coincide exactly — planar distance zero, so certainly within a
tiny offset of about 1e-8 units — yet the computed range keeps the
projection-based interpolated times (5 s, 5 s) instead of `t_0 = prev_t =
0 s`, `t_n = t = 10 s`: the code's guard tests shapely equality with the
first point translated by exactly `(1e-8, 1e-8)`, not closeness within a
tolerance. -/
theorem C3_counterexample :
    rowCoincident.spatial_intersection = some (⟨0, 0⟩, ⟨0, 0⟩) ∧
    get_spatiotemporal_ref rowCoincident = some ⟨⟨0, 0⟩, ⟨0, 0⟩, 5000000, 5000000⟩ ∧
    ¬ get_spatiotemporal_ref rowCoincident =
        some ⟨⟨0, 0⟩, ⟨0, 0⟩, rowCoincident.prev_t, rowCoincident.t⟩ := by
  have hpt : ¬ (⟨0, 0⟩ : Pt) = translate ⟨0, 0⟩ (1 / 100000000) (1 / 100000000) := by
    norm_num [translate]
  have hmicro : toMicro ((5000000 : ℚ)) = 5000000 := by
    rw [show ((5000000 : ℚ)) = ((5000000 : ℤ) : ℚ) by push_cast; ring]
    rw [toMicro, round_intCast]
  have key : get_spatiotemporal_ref rowCoincident =
      some ⟨⟨0, 0⟩, ⟨0, 0⟩, 5000000, 5000000⟩ := by
    simp only [get_spatiotemporal_ref, rowCoincident]
    rw [if_neg hpt]
    norm_num
    rw [hmicro]
    exact ⟨by decide, by decide⟩
  refine ⟨rfl, key, ?_⟩
  rw [key]
  intro h
  exact absurd
    (show (5000000 : Time) = 0 from
      congrArg (fun o => (o.map SpatioTemporalRange.t_0).getD 0) h)
    (by decide)

/-- Claim C3 amended: the degenerate-length override fires exactly when
the intersection's last endpoint equals the first endpoint translated by
exactly `(1e-8, 1e-8)` (the sentinel offset used for zero-length lines),
and in that case the output range's times are set to `t_0 = prev_t` and
`t_n = t` directly, overriding the projection-based interpolated times. -/
theorem C3_amended_sentinel_guard (row : LineRow) (c0 cn : Pt)
    (hint : row.spatial_intersection = some (c0, cn))
    (hguard : cn = translate c0 (1 / 100000000) (1 / 100000000)) :
    get_spatiotemporal_ref row = some ⟨c0, cn, row.prev_t, row.t⟩ := by
  subst hguard
  simp [get_spatiotemporal_ref, hint, is_equal]

/-- Witness for the amended claim C3 at the concrete sentinel row. -/
theorem C3_amended_witness :
    rowSentinel.spatial_intersection =
      some (⟨0, 0⟩, ⟨1 / 100000000, 1 / 100000000⟩) ∧
    (⟨1 / 100000000, 1 / 100000000⟩ : Pt) =
      translate ⟨0, 0⟩ (1 / 100000000) (1 / 100000000) ∧
    get_spatiotemporal_ref rowSentinel =
      some ⟨⟨0, 0⟩, ⟨1 / 100000000, 1 / 100000000⟩, 0, 10000000⟩ :=
  ⟨rfl, by simp [translate], C3_amended_sentinel_guard rowSentinel _ _ rfl (by simp [translate])⟩

/-- Claim C4 (code bug): point-based clipping mutates the input trajectory
in place.  `_determine_time_ranges_pointbased` starts with `df = traj.df`
— an alias, not a copy — and writes the helper columns `t`, `intersects`
and `segment` through that alias, so the input trajectory's sample table
differs after the call, contradicting the specification's no-mutation
guarantee (every other path copies: `create_entry_and_exit_points` uses
`traj.df.copy()` and `_get_segments_for_ranges` uses `traj.copy()`). -/
theorem C4_pointbased_mutates_input :
    (determine_time_ranges_pointbased (fun _ => true) trajW).2.df ≠ trajW.df ∧
    (determine_time_ranges_pointbased (fun _ => true) trajW).2.df.columns.map Prod.fst =
      ["geometry", "t", "intersects", "segment"] ∧
    trajW.df.columns.map Prod.fst = ["geometry"] ∧
    (determine_time_ranges_pointbased (fun _ => true) trajW).1 = [⟨0, 60000000⟩] := by
  have h2 : (determine_time_ranges_pointbased (fun _ => true) trajW).2.df.columns.map Prod.fst =
      ["geometry", "t", "intersects", "segment"] := rfl
  have h3 : trajW.df.columns.map Prod.fst = ["geometry"] := rfl
  refine ⟨?_, h2, h3, rfl⟩
  intro h
  rw [congrArg (fun d : DF => d.columns.map Prod.fst) h, h3] at h2
  simp at h2

/-- The front-trimming loop leaves windows of at most two entries
untouched. -/
theorem trimWindow_of_short (d : Time) (geoms : List G) (times : List Time)
    (h : geoms.length ≤ 2) : trimWindow d geoms times = (geoms, times) := by
  rw [trimWindow, dif_neg]
  intro hc
  omega

/-- Claim C6: in the per-sample processing, when the post-append/post-trim
window holds more than one entry and the state transitions from stopped to
moving, the completed stop `(segment_begin, segment_end, traj_id)` — first
window time and second-to-last window time — is emitted if and only if
`segment_end - segment_begin ≥ min_duration`, and on emission the window
is cleared. -/
theorem C6_stop_transition_emission (cfg : StopCfg G) (st : StopState G) (row : Time × G)
    (hprev : st.previously_stopped = true)
    (hlen : 1 < (stopWindow cfg st row).1.length)
    (hmov : ¬ cfg.mrr_diagonal (stopWindow cfg st row).1 cfg.is_latlon < cfg.max_diameter) :
    (cfg.min_duration ≤ (stopWindow cfg st row).2.dropLast.getLastD 0 -
        (stopWindow cfg st row).2.headD 0 →
      stopStep cfg st row =
        ⟨st.detected ++ [⟨(stopWindow cfg st row).2.headD 0,
          (stopWindow cfg st row).2.dropLast.getLastD 0, cfg.traj_id⟩], [], [], false, false⟩) ∧
    (¬ cfg.min_duration ≤ (stopWindow cfg st row).2.dropLast.getLastD 0 -
        (stopWindow cfg st row).2.headD 0 →
      stopStep cfg st row =
        ⟨st.detected, (stopWindow cfg st row).1, (stopWindow cfg st row).2, false, false⟩) := by
  have hstop : (decide (1 < (stopWindow cfg st row).1.length) &&
      decide (cfg.mrr_diagonal (stopWindow cfg st row).1 cfg.is_latlon < cfg.max_diameter)) =
        false := by
    simp [hmov]
  constructor
  · intro hdur
    simp only [stopStep]
    rw [if_pos hlen, if_pos (And.intro hstop hprev), if_pos hdur, hstop]
  · intro hdur
    simp only [stopStep]
    rw [if_pos hlen, if_pos (And.intro hstop hprev), if_neg hdur, hstop]

/-- Witness for claim C6: three samples sixty seconds apart, a window that
was stopped and turns moving at the third sample, emitting the completed
stop and clearing the window. -/
theorem C6_witness :
    (⟨[], [(), ()], [0, 60000000], true, true⟩ : StopState Unit).previously_stopped = true ∧
    1 < (stopWindow cfgMoving ⟨[], [(), ()], [0, 60000000], true, true⟩ (120000000, ())).1.length ∧
    stopStep cfgMoving ⟨[], [(), ()], [0, 60000000], true, true⟩ (120000000, ()) =
      ⟨[⟨0, 60000000, "t1"⟩], [], [], false, false⟩ := by
  refine ⟨rfl, by decide, ?_⟩
  have h := (C6_stop_transition_emission cfgMoving
      ⟨[], [(), ()], [0, 60000000], true, true⟩ (120000000, ()) rfl (by decide)
      (by intro hc; norm_num [cfgMoving] at hc)).1 (by decide)
  exact h.trans (by decide)

/-- A sample processed from an already-stopped state whose grown window is
still compact keeps the whole window and stays stopped, emitting
nothing. -/
theorem stopStep_stationary (cfg : StopCfg G) (pre : List (Time × G)) (r : Time × G)
    (hpre : 2 ≤ pre.length)
    (hc : cfg.mrr_diagonal ((pre ++ [r]).map Prod.snd) cfg.is_latlon < cfg.max_diameter) :
    stopStep cfg ⟨[], pre.map Prod.snd, pre.map Prod.fst, true, true⟩ r =
      ⟨[], (pre ++ [r]).map Prod.snd, (pre ++ [r]).map Prod.fst, true, true⟩ := by
  have hw : stopWindow cfg ⟨[], pre.map Prod.snd, pre.map Prod.fst, true, true⟩ r =
      ((pre ++ [r]).map Prod.snd, (pre ++ [r]).map Prod.fst) := by
    simp [stopWindow]
  have hlen1 : 1 < ((pre ++ [r]).map Prod.snd).length := by
    simp only [List.length_map, List.length_append, List.length_singleton]
    omega
  have hstop : (decide (1 < ((pre ++ [r]).map Prod.snd).length) &&
      decide (cfg.mrr_diagonal ((pre ++ [r]).map Prod.snd) cfg.is_latlon < cfg.max_diameter)) =
        true := by
    simp only [Bool.and_eq_true, decide_eq_true_eq]
    exact ⟨hlen1, hc⟩
  simp only [stopStep, hw]
  rw [if_pos hlen1, if_neg, hstop]
  intro hcond
  rw [hstop] at hcond
  exact absurd hcond.1 (by simp)

/-- Folding the stop-detector step over further samples of an entirely
compact trajectory keeps the full window, stays stopped, and emits
nothing. -/
theorem stationary_foldl (cfg : StopCfg G) (rows : List (Time × G)) :
    ∀ pre : List (Time × G), 2 ≤ pre.length →
    (∀ k, 2 ≤ k → k ≤ (pre ++ rows).length →
      cfg.mrr_diagonal (((pre ++ rows).take k).map Prod.snd) cfg.is_latlon <
        cfg.max_diameter) →
    rows.foldl (stopStep cfg) ⟨[], pre.map Prod.snd, pre.map Prod.fst, true, true⟩ =
      ⟨[], (pre ++ rows).map Prod.snd, (pre ++ rows).map Prod.fst, true, true⟩ := by
  induction rows with
  | nil => intro pre _ _; simp
  | cons r rest ih =>
    intro pre hpre hcompact
    have htake : (pre ++ r :: rest).take (pre.length + 1) = pre ++ [r] := by
      rw [List.take_append_eq_append_take]
      congr 1
      · exact List.take_of_length_le (by omega)
      · simp
    have hc : cfg.mrr_diagonal ((pre ++ [r]).map Prod.snd) cfg.is_latlon <
        cfg.max_diameter := by
      have := hcompact (pre.length + 1) (by omega) (by simp)
      rwa [htake] at this
    rw [List.foldl_cons, stopStep_stationary cfg pre r hpre hc]
    have hrec := ih (pre ++ [r]) (by simp; omega)
      (by
        intro k h2 hk
        have := hcompact k h2 (by simpa [List.append_assoc] using hk)
        simpa [List.append_assoc] using this)
    simpa [List.append_assoc] using hrec

/-- The first sample of a scan: a one-entry window, not stopped. -/
theorem stopStep_first (cfg : StopCfg G) (r : Time × G) :
    stopStep cfg ⟨[], [], [], false, false⟩ r = ⟨[], [r.2], [r.1], false, false⟩ := by
  have hw : stopWindow cfg ⟨[], [], [], false, false⟩ r = ([r.2], [r.1]) := by
    simp [stopWindow, trimWindow_of_short]
  simp [stopStep, hw]

/-- The second sample of a scan over a compact pair: a two-entry window,
newly stopped, nothing emitted. -/
theorem stopStep_second (cfg : StopCfg G) (r1 r2 : Time × G)
    (hc : cfg.mrr_diagonal [r1.2, r2.2] cfg.is_latlon < cfg.max_diameter) :
    stopStep cfg ⟨[], [r1.2], [r1.1], false, false⟩ r2 =
      ⟨[], [r1.2, r2.2], [r1.1, r2.1], true, true⟩ := by
  have hw : stopWindow cfg ⟨[], [r1.2], [r1.1], false, false⟩ r2 =
      ([r1.2, r2.2], [r1.1, r2.1]) := by
    simp [stopWindow, trimWindow_of_short]
  have hstop : (decide (1 < ([r1.2, r2.2] : List G).length) &&
      decide (cfg.mrr_diagonal [r1.2, r2.2] cfg.is_latlon < cfg.max_diameter)) = true := by
    simp only [Bool.and_eq_true, decide_eq_true_eq]
    exact ⟨by simp, hc⟩
  simp only [stopStep, hw]
  rw [if_pos (by simp : 1 < ([r1.2, r2.2] : List G).length), if_neg, hstop]
  intro hcond
  exact absurd hcond.2 (by simp)

/-- Claim C7: the post-scan final emission appends exactly one stop
covering the full window whenever the scan ends still stopped with a
window span of at least `min_duration`; consequently an entirely
stationary trajectory (every window compact) with at least two samples and
total span at least `min_duration` yields exactly one stop spanning the
whole trajectory. -/
theorem C7_final_emission_stationary (cfg : StopCfg G) (rows : List (Time × G))
    (hlen : 2 ≤ rows.length)
    (hcompact : ∀ k, 2 ≤ k → k ≤ rows.length →
      cfg.mrr_diagonal ((rows.take k).map Prod.snd) cfg.is_latlon < cfg.max_diameter)
    (hdur : cfg.min_duration ≤
      (rows.map Prod.fst).getLastD 0 - (rows.map Prod.fst).headD 0) :
    (∀ rows' : List (Time × G),
      (rows'.foldl (stopStep cfg) ⟨[], [], [], false, false⟩).is_stopped = true →
      cfg.min_duration ≤
        (rows'.foldl (stopStep cfg) ⟨[], [], [], false, false⟩).segment_times.getLastD 0 -
        (rows'.foldl (stopStep cfg) ⟨[], [], [], false, false⟩).segment_times.headD 0 →
      process_traj cfg rows' =
        (rows'.foldl (stopStep cfg) ⟨[], [], [], false, false⟩).detected ++
          [⟨(rows'.foldl (stopStep cfg) ⟨[], [], [], false, false⟩).segment_times.headD 0,
            (rows'.foldl (stopStep cfg) ⟨[], [], [], false, false⟩).segment_times.getLastD 0,
            cfg.traj_id⟩]) ∧
    process_traj cfg rows =
      [⟨(rows.map Prod.fst).headD 0, (rows.map Prod.fst).getLastD 0, cfg.traj_id⟩] := by
  constructor
  · intro rows' h1 h2
    simp only [process_traj]
    rw [if_pos ⟨h1, h2⟩]
  · match rows, hlen with
    | r1 :: r2 :: rest, _ =>
      have hc2 : cfg.mrr_diagonal [r1.2, r2.2] cfg.is_latlon < cfg.max_diameter := by
        have := hcompact 2 (by omega) (by simp)
        simpa using this
      have hfold := stationary_foldl cfg rest [r1, r2] (by simp)
        (by
          intro k h2 hk
          have := hcompact k h2 (by simpa using hk)
          simpa using this)
      simp only [List.map_cons, List.map_nil] at hfold
      simp only [process_traj, List.foldl_cons, stopStep_first cfg r1,
        stopStep_second cfg r1 r2 hc2, hfold]
      rw [if_pos]
      · simp
      · exact ⟨by trivial, by simpa using hdur⟩

/-- Witness for claim C7: a three-sample stationary trajectory spanning
two minutes with a two-minute minimum duration yields exactly one stop
spanning the whole trajectory. -/
theorem C7_witness :
    2 ≤ ([(0, ()), (60000000, ()), (120000000, ())] : List (Time × Unit)).length ∧
    cfgStationary.min_duration ≤
      (([(0, ()), (60000000, ()), (120000000, ())] : List (Time × Unit)).map
        Prod.fst).getLastD 0 -
      (([(0, ()), (60000000, ()), (120000000, ())] : List (Time × Unit)).map
        Prod.fst).headD 0 ∧
    process_traj cfgStationary [(0, ()), (60000000, ()), (120000000, ())] =
      [⟨0, 120000000, "t1"⟩] := by
  refine ⟨by decide, by decide, ?_⟩
  have h := (C7_final_emission_stationary cfgStationary
      [(0, ()), (60000000, ()), (120000000, ())] (by decide)
      (fun k _ _ => by norm_num [cfgStationary]) (by decide)).2
  exact h.trans (by decide)

/-- String concatenation is left-cancellative. -/
theorem string_append_left_cancel {s t u : String} (h : s ++ t = s ++ u) : t = u := by
  have hd := congrArg String.data h
  simp only [String.data_append] at hd
  exact String.ext (List.append_cancel_left hd)

/-- Overwriting a present column and looking it up again yields the new
values. -/
theorem lookup_map_overwrite (l : List (String × List PVal)) (k : String) (vs : List PVal)
    (hc : (l.map Prod.fst).contains k = true) :
    (l.map fun c => if c.1 = k then (k, vs) else c).lookup k = some vs := by
  induction l with
  | nil => simp at hc
  | cons c l ih =>
    simp only [List.map_cons]
    by_cases h : c.1 = k
    · rw [if_pos h, List.lookup_cons, beq_self_eq_true]
    · have hb : (k == c.1) = false := beq_false_of_ne fun hk => h hk.symm
      have hc' : (l.map Prod.fst).contains k = true := by
        rw [List.map_cons, List.contains_cons, hb] at hc
        simpa using hc
      rw [if_neg h]
      rcases c with ⟨ck, cv⟩
      rw [List.lookup_cons, hb]
      exact ih hc'

/-- Appending a column absent so far and looking it up yields the new
values. -/
theorem lookup_append_fresh (l : List (String × List PVal)) (k : String) (vs : List PVal)
    (hc : (l.map Prod.fst).contains k = false) :
    (l ++ [(k, vs)]).lookup k = some vs := by
  induction l with
  | nil => rw [List.nil_append, List.lookup_cons, beq_self_eq_true]
  | cons c l ih =>
    simp only [List.map_cons, List.contains_cons, Bool.or_eq_false_iff] at hc
    rcases c with ⟨ck, cv⟩
    rw [List.cons_append, List.lookup_cons, hc.1]
    exact ih hc.2

/-- Overwriting one column leaves the lookup of any other column
unchanged. -/
theorem lookup_map_overwrite_other (l : List (String × List PVal)) (k k' : String)
    (vs : List PVal) (hne : ¬ k' = k) :
    (l.map fun c => if c.1 = k then (k, vs) else c).lookup k' = l.lookup k' := by
  induction l with
  | nil => rfl
  | cons c l ih =>
    simp only [List.map_cons]
    rcases c with ⟨ck, cv⟩
    by_cases h : ck = k
    · have hb : (k' == k) = false := beq_false_of_ne hne
      rw [show (if (ck, cv).1 = k then (k, vs) else (ck, cv)) = (k, vs) from if_pos h,
        List.lookup_cons, hb, List.lookup_cons, show (k' == ck) = false from h ▸ hb]
      exact ih
    · rw [show (if (ck, cv).1 = k then (k, vs) else (ck, cv)) = (ck, cv) from if_neg h,
        List.lookup_cons, List.lookup_cons]
      by_cases h' : k' = ck
      · rw [show (k' == ck) = true from beq_iff_eq.mpr h']
      · rw [show (k' == ck) = false from beq_false_of_ne h']
        exact ih

/-- Appending one fresh column leaves the lookup of any other column
unchanged. -/
theorem lookup_append_other (l : List (String × List PVal)) (k k' : String)
    (vs : List PVal) (hne : ¬ k' = k) :
    (l ++ [(k, vs)]).lookup k' = l.lookup k' := by
  induction l with
  | nil =>
    rw [List.nil_append, List.lookup_cons, show (k' == k) = false from beq_false_of_ne hne]
  | cons c l ih =>
    rcases c with ⟨ck, cv⟩
    rw [List.cons_append, List.lookup_cons, List.lookup_cons]
    by_cases h' : k' = ck
    · rw [show (k' == ck) = true from beq_iff_eq.mpr h']
    · rw [show (k' == ck) = false from beq_false_of_ne h']
      exact ih

/-- Column assignment does not change the index. -/
theorem dfSetCol_index (df : DF) (k : String) (vs : List PVal) :
    (dfSetCol df k vs).index = df.index := by
  unfold dfSetCol
  split <;> rfl

/-- Reading back an assigned column yields the assigned values. -/
theorem dfGetCol_dfSetCol_self (df : DF) (k : String) (vs : List PVal) :
    dfGetCol (dfSetCol df k vs) k = some vs := by
  unfold dfGetCol dfSetCol
  split
  · exact lookup_map_overwrite df.columns k vs (by assumption)
  · exact lookup_append_fresh df.columns k vs (by simp_all)

/-- Assigning one column leaves every other column's lookup unchanged. -/
theorem dfGetCol_dfSetCol_other (df : DF) (k k' : String) (vs : List PVal)
    (hne : ¬ k' = k) : dfGetCol (dfSetCol df k vs) k' = dfGetCol df k' := by
  unfold dfGetCol dfSetCol
  split
  · exact lookup_map_overwrite_other df.columns k k' vs hne
  · exact lookup_append_other df.columns k k' vs hne

/-- Property stamping does not change the index. -/
theorem stampProperties_index (props : List (String × PVal)) (df : DF) :
    (stampProperties props df).index = df.index := by
  induction props generalizing df with
  | nil => rfl
  | cons p ps ih =>
    exact (ih (dfSetColScalar df ("intersecting_" ++ p.1) p.2)).trans
      (by rw [dfSetColScalar, dfSetCol_index])

/-- Property stamping leaves columns alone whose names none of the stamped
keys produce. -/
theorem stampProperties_lookup_other (props : List (String × PVal)) (df : DF) (key : String)
    (hk : ∀ p ∈ props, ¬ key = "intersecting_" ++ p.1) :
    dfGetCol (stampProperties props df) key = dfGetCol df key := by
  induction props generalizing df with
  | nil => rfl
  | cons p ps ih =>
    have h1 : dfGetCol (dfSetColScalar df ("intersecting_" ++ p.1) p.2) key =
        dfGetCol df key :=
      dfGetCol_dfSetCol_other df _ key _ (hk p (by simp))
    exact (ih (dfSetColScalar df ("intersecting_" ++ p.1) p.2)
      fun q hq => hk q (by simp [hq])).trans h1

/-- After stamping properties with pairwise distinct keys, the column
`intersecting_<k>` holds the scalar `v` of the property `(k, v)`,
broadcast over the whole index. -/
theorem stampProperties_lookup (props : List (String × PVal)) (df : DF) (k : String)
    (v : PVal) (hmem : (k, v) ∈ props) (hnd : (props.map Prod.fst).Nodup) :
    dfGetCol (stampProperties props df) ("intersecting_" ++ k) =
      some (List.replicate df.index.length v) := by
  induction props generalizing df with
  | nil => cases hmem
  | cons p ps ih =>
    rcases List.mem_cons.mp hmem with heq | hmem'
    · subst heq
      have huntouched : ∀ q ∈ ps, ¬ ("intersecting_" ++ k) = "intersecting_" ++ q.1 := by
        intro q hq heq2
        have hkq : k = q.1 := string_append_left_cancel heq2
        have hmemmap : k ∈ ps.map Prod.fst := hkq ▸ List.mem_map_of_mem Prod.fst hq
        exact (List.nodup_cons.mp (by simpa using hnd)).1 hmemmap
      have hset : dfGetCol (dfSetColScalar df ("intersecting_" ++ k) v)
          ("intersecting_" ++ k) = some (List.replicate df.index.length v) :=
        dfGetCol_dfSetCol_self df _ _
      exact (stampProperties_lookup_other ps _ _ huntouched).trans hset
    · have hnd' : (ps.map Prod.fst).Nodup := (List.nodup_cons.mp (by simpa using hnd)).2
      have hrec := ih (dfSetColScalar df ("intersecting_" ++ p.1) p.2) hmem' hnd'
      have hidx : (dfSetColScalar df ("intersecting_" ++ p.1) p.2).index = df.index := by
        rw [dfSetColScalar, dfSetCol_index]
      rw [hidx] at hrec
      exact hrec

/-- Claim C9: every segment returned by `intersection(traj, feature)` (for
a well-formed feature, whose property keys are pairwise distinct as dict
keys are) carries, for every property `(k, v)`, the attribute column
`intersecting_<k>` holding `v` at every sample. -/
theorem C9_intersection_properties (E : Engine Poly Line) (traj : Traj)
    (feature : Feature Poly) (pointbased : Bool) (segs : List Traj) (traj' : Traj)
    (hnd : (feature.properties.map Prod.fst).Nodup)
    (hout : intersection E traj feature pointbased = (.ok segs, traj')) :
    ∀ seg ∈ segs, ∀ kv ∈ feature.properties,
      dfGetCol seg.df ("intersecting_" ++ kv.1) =
        some (List.replicate seg.df.index.length kv.2) := by
  intro seg hseg kv hkv
  simp only [intersection] at hout
  rcases hclip : (clip E traj feature.geometry pointbased).1 with e | clipped
  · simp only [hclip] at hout
    simp at hout
  · simp only [hclip] at hout
    have hsegs : (clipped.map fun clipping =>
        { clipping with df := stampProperties feature.properties clipping.df }) = segs := by
      simpa using congrArg Prod.fst hout
    rw [← hsegs] at hseg
    obtain ⟨c, hc, rfl⟩ := List.mem_map.mp hseg
    have hidx : (stampProperties feature.properties c.df).index = c.df.index :=
      stampProperties_index _ _
    show dfGetCol (stampProperties feature.properties c.df) ("intersecting_" ++ kv.1) =
      some (List.replicate (stampProperties feature.properties c.df).index.length kv.2)
    rw [hidx]
    exact stampProperties_lookup feature.properties c.df kv.1 kv.2 hkv hnd

/-- Witness for claim C9 at a concrete two-sample trajectory, a trivial
engine, and a feature with two properties, in point-based mode. -/
theorem C9_witness :
    (featureW.properties.map Prod.fst).Nodup ∧
    intersection unitEngine trajW featureW true =
      (.ok [⟨⟨[0, 60000000],
        [("geometry", [PVal.pt ⟨0, 0⟩, PVal.pt ⟨1, 1⟩]),
         ("t", [PVal.i 0, PVal.i 60000000]),
         ("intersects", [PVal.b true, PVal.b true]),
         ("segment", [PVal.i 1, PVal.i 1]),
         ("intersecting_status", [PVal.s "ok", PVal.s "ok"]),
         ("intersecting_risk", [PVal.i 2, PVal.i 2])]⟩,
        "traj1_0", false, some "traj1"⟩],
       ⟨⟨[0, 60000000],
        [("geometry", [PVal.pt ⟨0, 0⟩, PVal.pt ⟨1, 1⟩]),
         ("t", [PVal.i 0, PVal.i 60000000]),
         ("intersects", [PVal.b true, PVal.b true]),
         ("segment", [PVal.i 1, PVal.i 1])]⟩, "traj1", false, none⟩) ∧
    ∀ seg ∈ [(⟨⟨[0, 60000000],
        [("geometry", [PVal.pt ⟨0, 0⟩, PVal.pt ⟨1, 1⟩]),
         ("t", [PVal.i 0, PVal.i 60000000]),
         ("intersects", [PVal.b true, PVal.b true]),
         ("segment", [PVal.i 1, PVal.i 1]),
         ("intersecting_status", [PVal.s "ok", PVal.s "ok"]),
         ("intersecting_risk", [PVal.i 2, PVal.i 2])]⟩,
        "traj1_0", false, some "traj1"⟩ : Traj)], ∀ kv ∈ featureW.properties,
      dfGetCol seg.df ("intersecting_" ++ kv.1) =
        some (List.replicate seg.df.index.length kv.2) :=
  ⟨by decide, by rfl,
    C9_intersection_properties unitEngine trajW featureW true _ _ (by decide) (by rfl)⟩

end MovingPandas
